import Mathlib

/-!
Verification of the forensic disk-analysis core
(`metadata_extractor.py`, `forensic_gui_analyzer.py`).

Bytes are modelled as natural numbers, byte buffers as `List ℕ`, Python
floats as exact rationals (`ℚ`), and fallible operations (`struct.unpack`
on a short slice, `datetime` construction on an invalid date) as
`Option`-valued functions.  Evidence images are byte lists; `reader.read`
is total slicing of the image.
-/

/-- A decoded calendar instant, mirroring the fields of a Python
`datetime.datetime` (sub-second precision is not needed by the decoders
verified here). -/
structure DateTime where
  year : ℕ
  month : ℕ
  day : ℕ
  hour : ℕ
  minute : ℕ
  second : ℕ
  deriving DecidableEq, Repr

/-- A MACB timestamp tuple: four independently optional instants, as
produced by the structure parsers (`mtime`/`ctime`/`atime`/`btime` keys of
the Python dicts). -/
structure TimestampRecord where
  mtime : Option DateTime
  ctime : Option DateTime
  atime : Option DateTime
  btime : Option DateTime
  deriving DecidableEq, Repr

/-- Whether `year` is a Gregorian leap year (Python `calendar`/`datetime`
rule). -/
def isLeapYear (y : ℕ) : Bool :=
  y % 4 = 0 && (y % 100 ≠ 0 || y % 400 = 0)

/-- Number of days in `month` of `year`, as enforced by Python
`datetime.datetime`. -/
def daysInMonth (y m : ℕ) : ℕ :=
  if m = 2 then (if isLeapYear y then 29 else 28)
  else if m = 4 ∨ m = 6 ∨ m = 9 ∨ m = 11 then 30
  else 31

/-- `datetime.datetime(y, m, d, h, mi, s)`: `some` when all fields are in
range (Python raises `ValueError` otherwise, which the decoders turn into
`None`). -/
def mkDatetime (y m d h mi s : ℕ) : Option DateTime :=
  if 1 ≤ y ∧ y ≤ 9999 ∧ 1 ≤ m ∧ m ≤ 12 ∧ 1 ≤ d ∧ d ≤ daysInMonth y m
      ∧ h ≤ 23 ∧ mi ≤ 59 ∧ s ≤ 59 then
    some ⟨y, m, d, h, mi, s⟩
  else
    none

/-- `reader.read(offset, size)` over an in-memory image: Python slicing,
total, possibly short near the end of the image. -/
def readAt (image : List ℕ) (offset size : ℕ) : List ℕ :=
  (image.drop offset).take size

/-- A byte slice of exactly `n` bytes starting at `i`, or `none` when the
buffer is too short — `struct.unpack` raises `struct.error` on a short
slice, which callers convert into a `None`/skip. -/
def sliceExact (data : List ℕ) (i n : ℕ) : Option (List ℕ) :=
  if i + n ≤ data.length then some ((data.drop i).take n) else none

/-- Little-endian value of a byte list. -/
def leVal : List ℕ → ℕ
  | [] => 0
  | b :: bs => b + 256 * leVal bs

/-- `struct.unpack('<H', data[i:i+2])`. -/
def readU16 (data : List ℕ) (i : ℕ) : Option ℕ :=
  (sliceExact data i 2).map leVal

/-- `struct.unpack('<I', data[i:i+4])`. -/
def readU32 (data : List ℕ) (i : ℕ) : Option ℕ :=
  (sliceExact data i 4).map leVal

/-- `struct.unpack('<Q', data[i:i+8])`. -/
def readU64 (data : List ℕ) (i : ℕ) : Option ℕ :=
  (sliceExact data i 8).map leVal

/-- Python `range(start, stop, step)` for a positive `step`, as a list of
integers. -/
def pythonRange (start stop step : ℤ) : List ℤ :=
  let n : ℕ := ((stop - start).toNat + step.toNat - 1) / step.toNat
  (List.range n).map fun (k : ℕ) => start + (k : ℤ) * step

/-- Python's substring test `needle in haystack` on byte strings. -/
def containsSub (needle : List ℕ) : List ℕ → Bool
  | [] => decide (needle = [])
  | h :: t => decide ((h :: t).take needle.length = needle) || containsSub needle t

/-- The byte string `needle` occurs contiguously somewhere in `hay`
(specification-level reading of "present anywhere in the boot sector"). -/
def OccursIn (needle hay : List ℕ) : Prop :=
  ∃ i, (hay.drop i).take needle.length = needle

/-! ## Filesystem detection (`FixedMetadataExtractor.detect_and_scan_filesystem`) -/

/-- The closed filesystem enum of the specification.  The source labels a
session with one of the string tags `'NTFS'`, `'ext4'`, `'FAT32'`,
`'Unknown'`; `exFAT` appears in the specification's detector contract and
is included so that claims about it can be stated. -/
inductive FsType where
  | NTFS
  | ext4
  | FAT32
  | exFAT
  | Unknown
  deriving DecidableEq, Repr

/-- `b'NTFS'`. -/
def ntfsSig : List ℕ := [78, 84, 70, 83]

/-- `b'FAT32'`. -/
def fat32Sig : List ℕ := [70, 65, 84, 51, 50]

/-- `b'FAT32   '`. -/
def fat32Sig8 : List ℕ := [70, 65, 84, 51, 50, 32, 32, 32]

/-- `b'EXFAT   '` (the exFAT OEM signature the specification's detector
clause (d) refers to). -/
def exfatSig : List ℕ := [69, 88, 70, 65, 84, 32, 32, 32]

/-- `FixedMetadataExtractor._check_ext4`: read 1024 bytes at offset 1024
and test the little-endian u16 at superblock offset 56 against `0xEF53`. -/
def check_ext4 (image : List ℕ) : Bool :=
  let superblock := readAt image 1024 1024
  decide (58 ≤ superblock.length) &&
    decide (readU16 superblock 56 = some 0xEF53)

/-- `FixedMetadataExtractor.detect_and_scan_filesystem`, detection part:
the `if`/`elif` chain over the boot sector (512 bytes at offset 0) and the
ext4 superblock probe.  The source has no exFAT branch; everything that
misses the three signature tests falls through to `'Unknown'` (generic
scan). -/
def detect_and_scan_filesystem (image : List ℕ) : FsType :=
  let boot := readAt image 0 512
  if containsSub ntfsSig boot then FsType.NTFS
  else if check_ext4 image then FsType.ext4
  else if containsSub fat32Sig boot
      || decide ((boot.drop 54).take 5 = fat32Sig)
      || decide ((boot.drop 82).take 8 = fat32Sig8) then FsType.FAT32
  else FsType.Unknown

/-! ## Radius-based offset association (`_scan_ntfs_mft`, `_scan_ext4_inodes`,
`_scan_fat32_directory`)

Each scan, after decoding a structure at byte offset `off`, stores its
timestamp record under every offset produced by a Python `range` loop
around `off`, guarded by `block_offset >= 0`.  The three loops below are
the exact `range` expressions of the source. -/

/-- NTFS (`_scan_ntfs_mft`):
`range(offset - 10*block_size, offset + 10*block_size, block_size)`
filtered to non-negative offsets. -/
def ntfsAssocOffsets (bs off : ℤ) : List ℤ :=
  (pythonRange (off - 10 * bs) (off + 10 * bs) bs).filter fun o => decide (0 ≤ o)

/-- ext4 (`_scan_ext4_inodes`):
`range(inode_offset - 5*block_size, inode_offset + 5*block_size, block_size)`
filtered to non-negative offsets. -/
def ext4AssocOffsets (bs off : ℤ) : List ℤ :=
  (pythonRange (off - 5 * bs) (off + 5 * bs) bs).filter fun o => decide (0 ≤ o)

/-- FAT32 (`_scan_fat32_directory`):
`range(offset - 2*block_size, offset + 2*block_size, block_size)`
filtered to non-negative offsets. -/
def fat32AssocOffsets (bs off : ℤ) : List ℤ :=
  (pythonRange (off - 2 * bs) (off + 2 * bs) bs).filter fun o => decide (0 ≤ o)

/-! ## FAT date/time decoding (`FixedMetadataExtractor._fat_datetime`) -/

/-- `FixedMetadataExtractor._fat_datetime(date, time)`: split the FAT
date/time words into bit fields, reject `month = 0`, `month > 12`,
`day = 0`, `day > 31`, and build a `datetime` (whose own range validation
turns e.g. February 30 into `None` via the `except` clause). -/
def fat_datetime (date time : ℕ) : Option DateTime :=
  if date = 0 then none
  else
    let year := ((date >>> 9) &&& 0x7F) + 1980
    let month := (date >>> 5) &&& 0x0F
    let day := date &&& 0x1F
    let hour := (time >>> 11) &&& 0x1F
    let minute := (time >>> 5) &&& 0x3F
    let second := (time &&& 0x1F) * 2
    if month = 0 ∨ month > 12 ∨ day = 0 ∨ day > 31 then none
    else mkDatetime year month day hour minute second

/-- Modelled from the spec: the FAT on-disk date layout
(`year = 1980 + bits[9:15]`, `month = bits[5:8]`, `day = bits[0:4]`,
§4.4).  The repository contains no FAT date encoder, so the packing is
taken from the specification's field layout; for in-range fields this is
exactly the bit-field packing. -/
def fatEncodeDate (y m d : ℕ) : ℕ :=
  (y - 1980) * 512 + m * 32 + d

/-! ## Metadata lookup (`FixedMetadataExtractor.get_metadata_for_offset`)

The offset→timestamp cache is modelled as a function from integer offsets
to optional records (`offset_to_metadata` dict membership). -/

/-- The body of the `for nearby in range(...)` loop: return the first
cached record among the candidate offsets, in list order. -/
def nearbyLoop (cache : ℤ → Option TimestampRecord) : List ℤ → Option TimestampRecord
  | [] => none
  | o :: rest =>
    match cache o with
    | some t => some t
    | none => nearbyLoop cache rest

/-- `FixedMetadataExtractor.get_metadata_for_offset(offset)`: round the
offset down to the block boundary, return an exact cache hit, otherwise
probe `range(block_offset - 5*block_size, block_offset + 5*block_size,
block_size)` in order. -/
def get_metadata_for_offset (bs : ℕ) (cache : ℤ → Option TimestampRecord)
    (offset : ℕ) : Option TimestampRecord :=
  let block_offset : ℤ := ((offset / bs) * bs : ℕ)
  match cache block_offset with
  | some t => some t
  | none =>
    nearbyLoop cache
      (pythonRange (block_offset - 5 * bs) (block_offset + 5 * bs) bs)

/-! ## NTFS MFT entry parsing (`FixedMetadataExtractor._parse_ntfs_mft_entry`)

The attribute walk returns the four raw FILETIME values (created,
modified, mft-modified, accessed) of a resident `$STANDARD_INFORMATION`
attribute.  The subsequent `_filetime_to_datetime` conversion is a pure
per-value post-processing step that plays no part in the walk's control
flow and is not needed by any verified property of the walk.

The walk is written with explicit fuel; the outer `none` marks fuel
exhaustion and is proved unreachable for sufficient fuel by
`ntfsAttrWalk_total` below.  `some none` is Python's `return None`, reached on
the end marker, the corruption guards, the loop bound, or a decoding
exception (short slice); `some (some q)` is a successful `return` of the
timestamp quadruple. -/

/-- The four consecutive little-endian FILETIME values read from a
resident `$STANDARD_INFORMATION` attribute's content. -/
def readFiletimes (data : List ℕ) (s : ℕ) : Option (ℕ × ℕ × ℕ × ℕ) :=
  match readU64 data s, readU64 data (s + 8),
        readU64 data (s + 16), readU64 data (s + 24) with
  | some created, some modified, some mftModified, some accessed =>
    some (created, modified, mftModified, accessed)
  | _, _, _, _ => none

/-- The `while current < len(data) - 64` attribute-record walk of
`_parse_ntfs_mft_entry`: stop on attribute type `0xFFFFFFFF`, return on a
resident `$STANDARD_INFORMATION` (type `0x10`), break on
`attr_length == 0 or attr_length > 1024`, otherwise advance by
`attr_length`. -/
def ntfsAttrWalk (data : List ℕ) : ℕ → ℕ → Option (Option (ℕ × ℕ × ℕ × ℕ))
  | _, 0 => none
  | current, fuel + 1 =>
    if current < data.length - 64 then
      match readU32 data current with
      | none => some none
      | some attrType =>
        if attrType = 0xFFFFFFFF then some none
        else
          let cont : Option (Option (ℕ × ℕ × ℕ × ℕ)) :=
            match readU32 data (current + 4) with
            | none => some none
            | some attrLength =>
              if attrLength = 0 ∨ 1024 < attrLength then some none
              else ntfsAttrWalk data (current + attrLength) fuel
          if attrType = 0x10 then
            match data.get? (current + 8) with
            | none => some none
            | some nonResident =>
              if nonResident = 0 then
                match readU16 data (current + 0x14) with
                | none => some none
                | some contentOffset =>
                  match readFiletimes data (current + contentOffset) with
                  | none => some none
                  | some q => some (some q)
              else cont
          else cont
    else
      some none

/-- `FixedMetadataExtractor._parse_ntfs_mft_entry(data)`: require the
`b'FILE'` signature, read the first-attribute offset (u16 at `0x14`) and
run the attribute walk.  Fuel `data.length + 1` suffices by
`ntfsAttrWalk_total` below. -/
def parse_ntfs_mft_entry (data : List ℕ) : Option (ℕ × ℕ × ℕ × ℕ) :=
  if data.take 4 = [70, 73, 76, 69] then
    match readU16 data 0x14 with
    | none => none
    | some attrsOffset => (ntfsAttrWalk data attrsOffset (data.length + 1)).getD none
  else none

/-! ## Block classification (`DiskAnalyzer._extract_metadata` and helpers) -/

/-- The file kinds of the `magic_bytes` table in
`DiskAnalyzer._detect_file_magic`. -/
inductive FileKind where
  | PNG
  | JPEG
  | GIF
  | ZIP
  | PDF
  | EXE
  | ELF
  | RIFF
  deriving DecidableEq, Repr

/-- The `magic_bytes` table, in the source's (insertion) order. -/
def magicTable : List (List ℕ × FileKind) :=
  [([0x89, 80, 78, 71], FileKind.PNG),
   ([0xFF, 0xD8, 0xFF], FileKind.JPEG),
   ([71, 73, 70, 56], FileKind.GIF),
   ([80, 75, 3, 4], FileKind.ZIP),
   ([37, 80, 68, 70], FileKind.PDF),
   ([77, 90], FileKind.EXE),
   ([0x7f, 69, 76, 70], FileKind.ELF),
   ([82, 73, 70, 70], FileKind.RIFF)]

/-- First `data.startswith(magic)` hit in table order. -/
def firstMagic (data : List ℕ) : List (List ℕ × FileKind) → Option FileKind
  | [] => none
  | (sig, kind) :: rest =>
    if data.take sig.length = sig then some kind else firstMagic data rest

/-- `DiskAnalyzer._detect_file_magic(data)`. -/
def detect_file_magic (data : List ℕ) : Option FileKind :=
  if data.length < 4 then none else firstMagic data magicTable

/-- `DiskAnalyzer._printable_ratio(data)`: fraction of bytes in
`[32, 126]` (0 for empty input; `ℚ` division by zero agrees with the
source's explicit empty-input guard). -/
def printable_ratio (data : List ℕ) : ℚ :=
  ((data.countP fun b => decide (32 ≤ b) && decide (b ≤ 126) : ℕ) : ℚ) / (data.length : ℚ)

/-- The per-block feature record built by `DiskAnalyzer._extract_metadata`.
`entropy` holds the Shannon-entropy figure of `_calculate_entropy`; its
value is an arbitrary rational here because the floating-point `log2`
computation is not needed by any verified property (every claim about the
correlation score holds for all entropy values). -/
structure Metadata where
  is_zero : Bool
  entropy : ℚ
  has_magic : Option FileKind
  printable : ℚ
  deriving DecidableEq, Repr

/-- `DiskAnalyzer._extract_metadata(data)`, with the entropy computation
supplied as the function `ent` (see `Metadata.entropy`). -/
def extract_metadata (ent : List ℕ → ℚ) (data : List ℕ) : Metadata :=
  { is_zero := (data.take 512).all fun b => b == 0
    entropy := ent (data.take 512)
    has_magic := detect_file_magic data
    printable := printable_ratio (data.take 512) }

/-- The `BlockData` namedtuple of `forensic_gui_analyzer.py`.  The session
whose behaviour is verified runs with the metadata extractor disabled
(importing `MACBTimestamps` from `metadata_extractor` raises
`ImportError`, so `METADATA_EXTRACTOR_AVAILABLE` is `False`), hence the
four MACB fields of every analyzed block are `None`. -/
structure BlockData where
  block_id : ℕ
  offset : ℕ
  size : ℕ
  file_path : Option String
  head_data : List ℕ
  tail_data : List ℕ
  metadata : Metadata
  mtime : Option DateTime
  ctime : Option DateTime
  atime : Option DateTime
  btime : Option DateTime
  deriving DecidableEq, Repr

/-! ## Correlation scoring (`DiskAnalyzer._calculate_correlation`) -/

/-- Python's binary `max`, written with an executable comparison (the
lattice `max` on `ℚ` does not reduce in the kernel). -/
def pymax (a b : ℚ) : ℚ := if a ≤ b then b else a

theorem pymax_eq_max (a b : ℚ) : pymax a b = max a b := by
  unfold pymax
  split_ifs with h
  · exact (max_eq_right h).symm
  · exact (max_eq_left (le_of_not_le h)).symm

/-- The `byte_similarity` term of `_calculate_correlation`: positionally
equal bytes of `block1.tail_data[:128]` against `block2.head_data[:128]`,
divided by the smaller of the two compared lengths. -/
def byte_similarity (tail_data head_data : List ℕ) : ℚ :=
  let tail_bytes := tail_data.take 128
  let head_bytes := head_data.take 128
  let matching_bytes := (tail_bytes.zip head_bytes).countP fun p => p.1 == p.2
  (matching_bytes : ℚ) / ((min tail_bytes.length head_bytes.length : ℕ) : ℚ)

/-- `DiskAnalyzer._calculate_correlation(block1, block2)`: the weighted
sum `byte_similarity * 0.5 + pattern_match * 0.3 + entropy_similarity *
0.2`, with `pattern_match = 0.3` exactly when the two magic
classifications agree.  (The two md5 hashes computed by the source are
never used and are omitted.)  Float constants are modelled as exact
rationals. -/
def calculate_correlation (block1 block2 : BlockData) : ℚ :=
  let byteSim := byte_similarity block1.tail_data block2.head_data
  let pattern_match : ℚ :=
    if block1.metadata.has_magic = block2.metadata.has_magic then 3/10 else 0
  let entropy_diff := |block1.metadata.entropy - block2.metadata.entropy|
  let entropy_similarity := pymax 0 (1 - entropy_diff / 8)
  byteSim * (1/2) + pattern_match * (3/10) + entropy_similarity * (1/5)

/-! ## Correlation engine (`DiskAnalyzer.correlate_blocks`) -/

/-- The `CorrelationResult` namedtuple. -/
structure CorrelationResult where
  block1_id : ℕ
  block2_id : ℕ
  correlation_score : ℚ
  sequence_order : ℕ × ℕ
  reconstruction_confidence : ℚ
  deriving DecidableEq, Repr

/-- `sorted(self.blocks.keys())` realised on the dict's entry list:
insertion sort by key (keys of a Python dict are distinct, so iterating
the sorted entries is iterating the sorted keys and indexing the dict). -/
def insertByKey (p : ℕ × BlockData) : List (ℕ × BlockData) → List (ℕ × BlockData)
  | [] => [p]
  | q :: t => if p.1 ≤ q.1 then p :: q :: t else q :: insertByKey p t

/-- Entry list sorted by ascending block id. -/
def sortByKey : List (ℕ × BlockData) → List (ℕ × BlockData)
  | [] => []
  | p :: t => insertByKey p (sortByKey t)

/-- The inner loop of `correlate_blocks` for one `block1`: compare against
`block_ids[i+1:i+50]` (the next at most 49 entries) and keep pairs whose
score exceeds the `0.7` threshold. -/
def pairsFor (id1 : ℕ) (b1 : BlockData) (window : List (ℕ × BlockData)) :
    List CorrelationResult :=
  window.filterMap fun p =>
    let score := calculate_correlation b1 p.2
    if 7/10 < score then
      some { block1_id := id1, block2_id := p.1, correlation_score := score,
             sequence_order := (id1, p.1), reconstruction_confidence := score }
    else none

/-- The outer loop of `correlate_blocks`, threading the analyzer's
`self.correlations` list and the `correlations_found` counter through the
iterations (each hit is appended to the existing list). -/
def corrLoop : List (ℕ × BlockData) → List CorrelationResult → ℕ →
    List CorrelationResult × ℕ
  | [], acc, found => (acc, found)
  | (id1, b1) :: rest, acc, found =>
    let hits := pairsFor id1 b1 (rest.take 49)
    corrLoop rest (acc ++ hits) (found + hits.length)

/-- The mutable `DiskAnalyzer` state touched by the correlation engine:
the analyzed block dict (as an entry list) and the `self.correlations`
list. -/
structure AnalyzerState where
  blocks : List (ℕ × BlockData)
  correlations : List CorrelationResult
  deriving DecidableEq, Repr

/-- `DiskAnalyzer.correlate_blocks()`: run the windowed pairwise scoring
over the sorted block ids, appending each `CorrelationResult` to
`self.correlations`, and return the number of correlations found by this
run together with the updated state. -/
def correlate_blocks (s : AnalyzerState) : ℕ × AnalyzerState :=
  let (correlations, found) := corrLoop (sortByKey s.blocks) s.correlations 0
  (found, { blocks := s.blocks, correlations := correlations })

/-! ## Block analysis pass (`DiskAnalyzer.analyze_blocks`)

`self.reader.read(offset, size)` can raise an `IOError` per the evidence
source contract, so the reader is modelled as a size together with a
fallible read function `ℕ → ℕ → Option (List ℕ)` (`none` = the read
raised).  Reading from an in-memory image never fails and corresponds to
`fun offset size => some (readAt image offset size)`. -/

/-- `total_blocks` as computed by `DiskAnalyzer.load_source`:
`(self.reader.size + self.block_size - 1) // self.block_size`. -/
def totalBlocks (size bs : ℕ) : ℕ :=
  (size + bs - 1) / bs

/-- One analyzed block: head/tail samples of 512 bytes
(`block_data[:512]`, `block_data[-512:]` when longer than the sample) and
the extracted features.  MACB timestamps are `None` (see `BlockData`). -/
def mkBlock (ent : List ℕ → ℚ) (block_id offset : ℕ) (block_data : List ℕ) :
    BlockData :=
  { block_id := block_id
    offset := offset
    size := block_data.length
    file_path := none
    head_data := block_data.take 512
    tail_data :=
      if 512 < block_data.length then block_data.drop (block_data.length - 512)
      else block_data
    metadata := extract_metadata ent block_data
    mtime := none, ctime := none, atime := none, btime := none }

/-- The `for block_id in range(self.total_blocks)` loop of
`analyze_blocks`: read the block — a read that raises is caught by the
`except Exception: continue` clause, skipping just that block id — stop
on an empty read, store the `BlockData`, and stop once 1000 blocks have
been analyzed (the POC limit). -/
def analyzeLoop (ent : List ℕ → ℚ) (read : ℕ → ℕ → Option (List ℕ)) (bs : ℕ) :
    List ℕ → ℕ → List (ℕ × BlockData) → ℕ × List (ℕ × BlockData)
  | [], analyzed, blocks => (analyzed, blocks)
  | block_id :: rest, analyzed, blocks =>
    let offset := block_id * bs
    match read offset bs with
    | none => analyzeLoop ent read bs rest analyzed blocks
    | some block_data =>
      if block_data.isEmpty then (analyzed, blocks)
      else
        let blocks' := blocks ++ [(block_id, mkBlock ent block_id offset block_data)]
        let analyzed' := analyzed + 1
        if 1000 ≤ analyzed' then (analyzed', blocks')
        else analyzeLoop ent read bs rest analyzed' blocks'

/-- `DiskAnalyzer.analyze_blocks()` on a freshly loaded source of the
given size: returns `blocks_analyzed` and the populated block dict. -/
def analyze_blocks (ent : List ℕ → ℚ) (read : ℕ → ℕ → Option (List ℕ))
    (size bs : ℕ) : ℕ × List (ℕ × BlockData) :=
  analyzeLoop ent read bs (List.range (totalBlocks size bs)) 0 []

/-- `DiskAnalyzer.get_block_info(block_id)`: `self.blocks.get(block_id)`. -/
def get_block_info (blocks : List (ℕ × BlockData)) (block_id : ℕ) :
    Option BlockData :=
  (blocks.find? fun p => p.1 == block_id).map Prod.snd

/-! ## Shared concrete fixtures and helper lemmas -/

/-- An analyzed all-zero one-byte block (the degenerate but fully
representative block used in concrete evaluations: an all-zero buffer has
Shannon entropy exactly 0, so the entropy field is the true value). -/
def cbZero : BlockData := mkBlock (fun _ => 0) 0 0 [0]

theorem natCast_div_le_one (m n : ℕ) (h : m ≤ n) : (m : ℚ) / (n : ℚ) ≤ 1 := by
  rcases Nat.eq_zero_or_pos n with h0 | h0
  · have hm : m = 0 := by omega
    subst hm; subst h0; simp
  · rw [div_le_one (by exact_mod_cast h0)]
    exact_mod_cast h

theorem corrLoop_acc_spec :
    ∀ (l : List (ℕ × BlockData)) (acc : List CorrelationResult) (found : ℕ),
      (corrLoop l acc found).1 = acc ++ (corrLoop l [] 0).1 ∧
        (corrLoop l acc found).2 = found + (corrLoop l [] 0).2 := by
  intro l
  induction l with
  | nil => intro acc found; simp [corrLoop]
  | cons p rest ih =>
    intro acc found
    obtain ⟨id1, b1⟩ := p
    simp only [corrLoop, List.nil_append, Nat.zero_add]
    rcases ih (acc ++ pairsFor id1 b1 (rest.take 49))
        (found + (pairsFor id1 b1 (rest.take 49)).length) with ⟨hl, hr⟩
    rcases ih (pairsFor id1 b1 (rest.take 49))
        ((pairsFor id1 b1 (rest.take 49)).length) with ⟨hl0, hr0⟩
    constructor
    · rw [hl, hl0, List.append_assoc]
    · rw [hr, hr0]; omega

theorem corrLoop_found_eq_length :
    ∀ l : List (ℕ × BlockData), (corrLoop l [] 0).2 = (corrLoop l [] 0).1.length := by
  intro l
  induction l with
  | nil => simp [corrLoop]
  | cons p rest ih =>
    obtain ⟨id1, b1⟩ := p
    simp only [corrLoop, List.nil_append, Nat.zero_add]
    rcases corrLoop_acc_spec rest (pairsFor id1 b1 (rest.take 49))
        ((pairsFor id1 b1 (rest.take 49)).length) with ⟨hl, hr⟩
    rw [hl, hr, ih, List.length_append]

theorem calc_cbZero : calculate_correlation cbZero cbZero = 79/100 := by
  show calculate_correlation (mkBlock (fun _ => 0) 0 0 [0]) (mkBlock (fun _ => 0) 0 0 [0]) = 79/100
  simp [calculate_correlation, byte_similarity, mkBlock, extract_metadata,
    detect_file_magic, printable_ratio, pymax, List.countP, List.countP.go]
  norm_num

/-- The single correlation record produced by comparing two all-zero
blocks with ids `id1 < id2`. -/
def zeroPairResult (id1 id2 : ℕ) : CorrelationResult :=
  { block1_id := id1, block2_id := id2, correlation_score := 79/100,
    sequence_order := (id1, id2), reconstruction_confidence := 79/100 }

theorem pairsFor_nil (id1 : ℕ) (b1 : BlockData) : pairsFor id1 b1 [] = [] := rfl

theorem pairsFor_cbZero (id1 id2 : ℕ) :
    pairsFor id1 cbZero [(id2, cbZero)] = [zeroPairResult id1 id2] := by
  simp only [pairsFor, List.filterMap, calc_cbZero, zeroPairResult]
  rw [if_pos (by norm_num)]

/-! ## Claim C1 — correlation results are appended, not replaced -/

/-- A reachable analyzer state with two correlating all-zero blocks and an
empty result list (the state right after a block analysis). -/
def s0C1 : AnalyzerState := { blocks := [(0, cbZero), (1, cbZero)], correlations := [] }

/-- C1 counterexample: running `correlate_blocks` twice from `s0C1`, the
second run produces 1 correlation (its returned count) but the stored
list afterwards holds 2 entries — the prior run's result was not
discarded, so the stored list is not "exactly the results produced by
that run". -/
theorem claim_C1_counterexample :
    (correlate_blocks (correlate_blocks s0C1).2).1 = 1 ∧
      (correlate_blocks (correlate_blocks s0C1).2).2.correlations.length = 2 := by
  have hsort : sortByKey [(0, cbZero), (1, cbZero)] = [(0, cbZero), (1, cbZero)] := by
    simp [sortByKey, insertByKey]
  have hrun : ∀ acc found, corrLoop [(0, cbZero), (1, cbZero)] acc found =
      (acc ++ [zeroPairResult 0 1], found + 1) := by
    intro acc found
    simp [corrLoop, pairsFor_cbZero, pairsFor_nil]
  constructor
  · simp only [correlate_blocks, s0C1, hsort, hrun]
  · simp only [correlate_blocks, s0C1, hsort, hrun]
    simp

/-- C1 (amended): every call to `correlate_blocks` leaves the blocks
untouched and sets the stored correlation list to the prior list followed
by the results produced by that run (whose count is the returned value) —
results accumulate across runs instead of being cleared and replaced. -/
theorem claim_C1_results_appended (s : AnalyzerState) :
    (correlate_blocks s).2.blocks = s.blocks ∧
      (correlate_blocks s).2.correlations =
        s.correlations ++ (corrLoop (sortByKey s.blocks) [] 0).1 ∧
      (correlate_blocks s).1 = (corrLoop (sortByKey s.blocks) [] 0).1.length := by
  rcases corrLoop_acc_spec (sortByKey s.blocks) s.correlations 0 with ⟨hl, hr⟩
  refine ⟨rfl, ?_, ?_⟩
  · simp only [correlate_blocks]
    exact hl
  · simp only [correlate_blocks]
    rw [hr, corrLoop_found_eq_length]
    omega

/-! ## Claim C10 — the correlation score never exceeds 0.79 -/

/-- C10: for every pair of blocks whose compared byte samples are
non-empty (Python raises `ZeroDivisionError` otherwise), the correlation
score is at most `0.79`: the pattern-match indicator (`0.3` on magic
agreement) is multiplied again by the `0.3` weight, so magic agreement
contributes at most `0.09`, and `0.5 + 0.09 + 0.2 = 0.79`; the bound is
attained, e.g. by two identical all-zero blocks. -/
theorem claim_C10_score_le (block1 block2 : BlockData)
    (hlen : 0 < min (block1.tail_data.take 128).length
        (block2.head_data.take 128).length) :
    calculate_correlation block1 block2 ≤ 79/100 ∧
      calculate_correlation cbZero cbZero = 79/100 := by
  constructor
  · simp only [calculate_correlation, byte_similarity]
    have hcount :
        ((block1.tail_data.take 128).zip (block2.head_data.take 128)).countP
            (fun p => p.1 == p.2) ≤
          min (block1.tail_data.take 128).length (block2.head_data.take 128).length := by
      have h := List.countP_le_length (p := fun p : ℕ × ℕ => p.1 == p.2)
        (l := (block1.tail_data.take 128).zip (block2.head_data.take 128))
      simpa [List.length_zip] using h
    have hbs1 :
        (((block1.tail_data.take 128).zip (block2.head_data.take 128)).countP
            (fun p => p.1 == p.2) : ℚ) /
          ((min (block1.tail_data.take 128).length
              (block2.head_data.take 128).length : ℕ) : ℚ) ≤ 1 :=
      natCast_div_le_one _ _ hcount
    have hbs0 :
        (0 : ℚ) ≤
          (((block1.tail_data.take 128).zip (block2.head_data.take 128)).countP
              (fun p => p.1 == p.2) : ℚ) /
            ((min (block1.tail_data.take 128).length
                (block2.head_data.take 128).length : ℕ) : ℚ) := by
      positivity
    have habs : (0 : ℚ) ≤ |block1.metadata.entropy - block2.metadata.entropy| :=
      abs_nonneg _
    rw [pymax_eq_max]
    have hes0 : (0 : ℚ) ≤
        max 0 (1 - |block1.metadata.entropy - block2.metadata.entropy| / 8) :=
      le_max_left _ _
    have hes1 :
        max 0 (1 - |block1.metadata.entropy - block2.metadata.entropy| / 8) ≤ 1 := by
      apply max_le
      · norm_num
      · linarith
    by_cases hmg : block1.metadata.has_magic = block2.metadata.has_magic <;>
      simp only [hmg, if_true, if_false, reduceIte] <;> linarith
  · exact calc_cbZero

/-- C10 witness: the score bound instantiated at two concrete all-zero
blocks, where it is attained. -/
theorem claim_C10_witness :
    calculate_correlation cbZero cbZero ≤ 79/100 ∧
      calculate_correlation cbZero cbZero = 79/100 :=
  claim_C10_score_le cbZero cbZero (by simp [cbZero, mkBlock])

/-! ## Claim C2 — which bytes the byte_similarity term compares -/

/-- The last at most `n` bytes of a buffer. -/
def lastN (n : ℕ) (l : List ℕ) : List ℕ := l.drop (l.length - n)

/-- Count of positions (up to the shorter length) at which two buffers
hold equal bytes. -/
def posEqCount (a b : List ℕ) : ℕ :=
  (List.range (min a.length b.length)).countP fun i => a.getD i 0 == b.getD i 0

/-- The claim's reading of the `byte_similarity` term: positionally equal
bytes between the *last* at-most-128 bytes of the tail sample and the
first at-most-128 bytes of the head sample, over the smaller compared
length. -/
def byteSimilarityLastOfTail (tail_data head_data : List ℕ) : ℚ :=
  let tail_bytes := lastN 128 tail_data
  let head_bytes := head_data.take 128
  (posEqCount tail_bytes head_bytes : ℚ) /
    ((min tail_bytes.length head_bytes.length : ℕ) : ℚ)

/-- A 256-byte tail sample whose first and last halves differ. -/
def tailC2 : List ℕ := List.replicate 128 0 ++ List.replicate 128 1

/-- A 128-byte head sample equal to the last half of `tailC2`. -/
def headC2 : List ℕ := List.replicate 128 1

set_option maxRecDepth 40000 in
/-- C2 counterexample: on these samples the source's `byte_similarity`
(which takes `tail_data[:128]`, the *first* 128 bytes of the tail sample)
is 0, while the claimed fraction over the *last* 128 bytes of the tail
sample is 1. -/
theorem claim_C2_counterexample :
    byte_similarity tailC2 headC2 = 0 ∧
      byteSimilarityLastOfTail tailC2 headC2 = 1 := by
  have h1 : ((tailC2.take 128).zip (headC2.take 128)).countP
      (fun p => p.1 == p.2) = 0 := by decide
  have h2 : posEqCount (lastN 128 tailC2) (headC2.take 128) = 128 := by decide
  have h3 : min (tailC2.take 128).length (headC2.take 128).length = 128 := by decide
  have h4 : min (lastN 128 tailC2).length (headC2.take 128).length = 128 := by decide
  constructor
  · simp only [byte_similarity, h1, h3]
    norm_num
  · simp only [byteSimilarityLastOfTail, h2, h4]
    norm_num

theorem countP_zip_eq_posEqCount :
    ∀ a b : List ℕ, (a.zip b).countP (fun p => p.1 == p.2) = posEqCount a b := by
  intro a
  induction a with
  | nil => intro b; simp [posEqCount]
  | cons x as ih =>
    intro b
    cases b with
    | nil => simp [posEqCount]
    | cons y bs =>
      have hminsucc : (as.length + 1) ⊓ (bs.length + 1) = as.length ⊓ bs.length + 1 := by
        omega
      simp only [List.zip_cons_cons, List.countP_cons, posEqCount,
        List.length_cons, hminsucc, List.range_succ_eq_map, List.countP_map]
      have hmap :
          ((fun i => List.getD (x :: as) i 0 == List.getD (y :: bs) i 0) ∘ Nat.succ) =
            fun i => List.getD as i 0 == List.getD bs i 0 := by
        funext i
        simp [List.getD_cons_succ]
      rw [hmap]
      have hrec := ih bs
      simp only [posEqCount] at hrec
      simp [hrec, List.getD_cons_zero]

/-- C2 (amended): the `byte_similarity` term equals the fraction of
positionally equal bytes between the *first* at-most-128 bytes of block
i's tail sample and the first at-most-128 bytes of block j's head sample,
with denominator the smaller of the two compared lengths. -/
theorem claim_C2_first128 (tail_data head_data : List ℕ) :
    byte_similarity tail_data head_data =
      (posEqCount (tail_data.take 128) (head_data.take 128) : ℚ) /
        ((min (tail_data.take 128).length (head_data.take 128).length : ℕ) : ℚ) := by
  simp only [byte_similarity, countP_zip_eq_posEqCount]

/-! ## Claim C6 — the bounded correlation window is positional -/

theorem corrLoop_split (p : ℕ × BlockData) (rest : List (ℕ × BlockData)) :
    (corrLoop (p :: rest) [] 0).1 =
      pairsFor p.1 p.2 (rest.take 49) ++ (corrLoop rest [] 0).1 := by
  obtain ⟨id1, b1⟩ := p
  simp only [corrLoop, List.nil_append, Nat.zero_add]
  exact (corrLoop_acc_spec rest _ _).1

theorem corrLoop_mem_position :
    ∀ (l : List (ℕ × BlockData)) (r : CorrelationResult),
      r ∈ (corrLoop l [] 0).1 →
        ∃ i j, i < j ∧ j ≤ i + 49 ∧
          (l.get? i).map Prod.fst = some r.block1_id ∧
          (l.get? j).map Prod.fst = some r.block2_id := by
  intro l
  induction l with
  | nil => intro r hr; simp [corrLoop] at hr
  | cons p rest ih =>
    intro r hr
    obtain ⟨id1, b1⟩ := p
    rw [corrLoop_split] at hr
    rcases List.mem_append.1 hr with hcase | hcase
    · simp only [pairsFor] at hcase
      rcases List.mem_filterMap.1 hcase with ⟨q, hq_mem, hq_eq⟩
      obtain ⟨id2, b2⟩ := q
      by_cases hs : (7 : ℚ)/10 < calculate_correlation b1 b2
      · simp only [hs, if_pos] at hq_eq
        have hr1 : r.block1_id = id1 := by
          cases hq_eq; rfl
        have hr2 : r.block2_id = id2 := by
          cases hq_eq; rfl
        rcases List.mem_iff_get?.1 hq_mem with ⟨n, hn⟩
        have hn_lt : n < (rest.take 49).length := by
          by_contra hcon
          rw [List.get?_eq_none.2 (by omega)] at hn
          cases hn
        have hn49 : n < 49 := by
          have := List.length_take 49 rest
          omega
        have hrest : rest.get? n = some (id2, b2) := by
          rw [← List.get?_take hn49]
          exact hn
        refine ⟨0, n + 1, by omega, by omega, ?_, ?_⟩
        · rw [List.get?_cons_zero, hr1]
          rfl
        · rw [List.get?_cons_succ, hrest, hr2]
          rfl
      · rw [if_neg hs] at hq_eq
        cases hq_eq
    · rcases ih r hcase with ⟨i, j, hij, hj49, h1, h2⟩
      exact ⟨i + 1, j + 1, by omega, by omega, by simpa using h1, by simpa using h2⟩

/-- C6 (amended): every result recorded by `correlate_blocks` pairs a
block with one of the at most 49 entries that follow it in the list of
analyzed blocks sorted by id; consequently, when the analyzed ids are
contiguous (`0, 1, …, n-1`) every recorded result satisfies
`block2_id - block1_id ≤ 49 < 50` — but the guarantee is positional, not
an id-difference bound (see the counterexample for non-contiguous ids). -/
theorem claim_C6_window (blocks : List (ℕ × BlockData)) (r : CorrelationResult)
    (hr : r ∈ (correlate_blocks { blocks := blocks, correlations := [] }).2.correlations) :
    (∃ i j, i < j ∧ j ≤ i + 49 ∧
        ((sortByKey blocks).get? i).map Prod.fst = some r.block1_id ∧
        ((sortByKey blocks).get? j).map Prod.fst = some r.block2_id) ∧
      ∀ n, (sortByKey blocks).map Prod.fst = List.range n →
        r.block2_id - r.block1_id ≤ 49 := by
  have hr' : r ∈ (corrLoop (sortByKey blocks) [] 0).1 := by
    simpa [correlate_blocks] using hr
  obtain ⟨i, j, hij, hj49, h1, h2⟩ := corrLoop_mem_position _ r hr'
  refine ⟨⟨i, j, hij, hj49, h1, h2⟩, ?_⟩
  intro n hn
  have e1 : (List.range n).get? i = some r.block1_id := by
    rw [← hn, List.get?_map, h1]
  have e2 : (List.range n).get? j = some r.block2_id := by
    rw [← hn, List.get?_map, h2]
  have hi_lt : i < n := by
    by_contra hcon
    rw [List.get?_eq_none.2 (by simpa using hcon)] at e1
    cases e1
  have hj_lt : j < n := by
    by_contra hcon
    rw [List.get?_eq_none.2 (by simpa using hcon)] at e2
    cases e2
  rw [List.get?_range hi_lt] at e1
  rw [List.get?_range hj_lt] at e2
  have hb1 : r.block1_id = i := by cases e1; rfl
  have hb2 : r.block2_id = j := by cases e2; rfl
  omega

/-- An analyzed-block dict with the non-contiguous ids 0 and 100 (read
errors during `analyze_blocks` skip a block and leave such gaps). -/
def blocksC6 : List (ℕ × BlockData) := [(0, cbZero), (100, cbZero)]

/-- C6 counterexample: with analyzed ids 0 and 100, `correlate_blocks`
records the pair `(0, 100)` even though `100 - 0 ≥ 50` — the window is 49
*positions* in the sorted id list, not an id-difference bound. -/
theorem claim_C6_counterexample :
    (correlate_blocks { blocks := blocksC6, correlations := [] }).2.correlations =
      [zeroPairResult 0 100] ∧ 50 ≤ 100 - 0 := by
  constructor
  · have hsort : sortByKey blocksC6 = blocksC6 := by
      simp [sortByKey, insertByKey, blocksC6]
    have hrun : corrLoop blocksC6 [] 0 = ([zeroPairResult 0 100], 1) := by
      simp [blocksC6, corrLoop, pairsFor_cbZero, pairsFor_nil]
    simp only [correlate_blocks, hsort, hrun]
  · norm_num

/-- The analyzed-block dict used by the C6 witness. -/
def blocksC6W : List (ℕ × BlockData) := [(0, cbZero), (1, cbZero)]

theorem corr_blocksC6W :
    (correlate_blocks { blocks := blocksC6W, correlations := [] }).2.correlations =
      [zeroPairResult 0 1] := by
  have hsort : sortByKey blocksC6W = blocksC6W := by
    simp [sortByKey, insertByKey, blocksC6W]
  have hrun : corrLoop blocksC6W [] 0 = ([zeroPairResult 0 1], 1) := by
    simp [blocksC6W, corrLoop, pairsFor_cbZero, pairsFor_nil]
  simp only [correlate_blocks, hsort, hrun]

/-- C6 witness: the window theorem applied to a concrete recorded
result. -/
theorem claim_C6_window_witness :
    (∃ i j, i < j ∧ j ≤ i + 49 ∧
        ((sortByKey blocksC6W).get? i).map Prod.fst = some (zeroPairResult 0 1).block1_id ∧
        ((sortByKey blocksC6W).get? j).map Prod.fst = some (zeroPairResult 0 1).block2_id) ∧
      ∀ n, (sortByKey blocksC6W).map Prod.fst = List.range n →
        (zeroPairResult 0 1).block2_id - (zeroPairResult 0 1).block1_id ≤ 49 :=
  claim_C6_window blocksC6W (zeroPairResult 0 1) (by simp [corr_blocksC6W])

/-! ## Claim C3 — the association radius per filesystem -/

theorem pythonRange_eq_map (start step : ℤ) (m : ℕ) (hstep : 0 < step) :
    pythonRange start (start + (m : ℤ) * step) step =
      (List.range m).map fun (k : ℕ) => start + (k : ℤ) * step := by
  unfold pythonRange
  have harg : start + (m : ℤ) * step - start = (m : ℤ) * step := by ring
  have hstep' : step = (step.toNat : ℤ) := (Int.toNat_of_nonneg hstep.le).symm
  have hmul : ((m : ℤ) * step).toNat = m * step.toNat := by
    conv_lhs => rw [hstep']
    rw [← Nat.cast_mul, Int.toNat_natCast]
  have hst1 : 1 ≤ step.toNat := by omega
  have hn : (m * step.toNat + step.toNat - 1) / step.toNat = m := by
    have h1 : m * step.toNat + step.toNat - 1 = step.toNat * m + (step.toNat - 1) := by
      ring_nf
      omega
    rw [h1, Nat.mul_add_div (by omega), Nat.div_eq_of_lt (by omega)]
    omega
  simp only [harg, hmul, hn]

theorem assocOffsets_mem (bs off o : ℤ) (r : ℕ) (hbs : 0 < bs) :
    (o ∈ (pythonRange (off - (r : ℤ) * bs) (off + (r : ℤ) * bs) bs).filter
        fun x => decide (0 ≤ x)) ↔
      0 ≤ o ∧ ∃ j : ℤ, -(r : ℤ) ≤ j ∧ j < (r : ℤ) ∧ o = off + j * bs := by
  have hstop : off + (r : ℤ) * bs = (off - (r : ℤ) * bs) + ((2 * r : ℕ) : ℤ) * bs := by
    push_cast
    ring
  rw [hstop, pythonRange_eq_map _ _ _ hbs]
  simp only [List.mem_filter, List.mem_map, List.mem_range, decide_eq_true_eq]
  constructor
  · rintro ⟨⟨k, hk, hkeq⟩, hpos⟩
    refine ⟨hpos, (k : ℤ) - r, by omega, by omega, ?_⟩
    rw [← hkeq]
    ring
  · rintro ⟨hpos, j, hj1, hj2, hjeq⟩
    refine ⟨⟨(j + r).toNat, by omega, ?_⟩, hpos⟩
    have hcast : ((j + (r : ℤ)).toNat : ℤ) = j + r := Int.toNat_of_nonneg (by omega)
    rw [hcast, hjeq]
    ring

/-- C3 (amended): each decoded structure's record is associated with the
offsets `structure_offset + j * block_size` for `j` ranging over
`[-10, 10)` for NTFS, `[-5, 5)` for ext4, and `[-2, 2)` for FAT32
(clipped to non-negative offsets): the FAT32 radius is about 2 blocks,
not about 10, and the offsets are block-aligned only when the structure
offset is. -/
theorem claim_C3_assoc_radius (bs off o : ℤ) (hbs : 0 < bs) :
    (o ∈ ntfsAssocOffsets bs off ↔
        0 ≤ o ∧ ∃ j : ℤ, -10 ≤ j ∧ j < 10 ∧ o = off + j * bs) ∧
      (o ∈ ext4AssocOffsets bs off ↔
        0 ≤ o ∧ ∃ j : ℤ, -5 ≤ j ∧ j < 5 ∧ o = off + j * bs) ∧
      (o ∈ fat32AssocOffsets bs off ↔
        0 ≤ o ∧ ∃ j : ℤ, -2 ≤ j ∧ j < 2 ∧ o = off + j * bs) := by
  refine ⟨?_, ?_, ?_⟩
  · have h := assocOffsets_mem bs off o 10 hbs
    norm_num at h
    simpa [ntfsAssocOffsets] using h
  · have h := assocOffsets_mem bs off o 5 hbs
    norm_num at h
    simpa [ext4AssocOffsets] using h
  · have h := assocOffsets_mem bs off o 2 hbs
    norm_num at h
    simpa [fat32AssocOffsets] using h

/-- C3 counterexample: for a FAT32 structure at offset 40960 with block
size 4096, the block-aligned offset 53248 — only 3 blocks away, well
within the claimed ≈10-block radius (and indeed associated by the NTFS
scan's loop) — is *not* associated by the FAT32 scan, whose loop spans
only 2 blocks. -/
theorem claim_C3_counterexample :
    (53248 : ℤ) ∉ fat32AssocOffsets 4096 40960 ∧
      (53248 : ℤ) = 40960 + 3 * 4096 ∧
      (53248 : ℤ) ∈ ntfsAssocOffsets 4096 40960 := by
  refine ⟨by decide, by norm_num, by decide⟩

/-- C3 witness: the radius characterisation instantiated at block size
4096, structure offset 40960 and probe offset 45056. -/
theorem claim_C3_witness :
    ((45056 : ℤ) ∈ ntfsAssocOffsets 4096 40960 ↔
        0 ≤ (45056 : ℤ) ∧ ∃ j : ℤ, -10 ≤ j ∧ j < 10 ∧ (45056 : ℤ) = 40960 + j * 4096) ∧
      ((45056 : ℤ) ∈ ext4AssocOffsets 4096 40960 ↔
        0 ≤ (45056 : ℤ) ∧ ∃ j : ℤ, -5 ≤ j ∧ j < 5 ∧ (45056 : ℤ) = 40960 + j * 4096) ∧
      ((45056 : ℤ) ∈ fat32AssocOffsets 4096 40960 ↔
        0 ≤ (45056 : ℤ) ∧ ∃ j : ℤ, -2 ≤ j ∧ j < 2 ∧ (45056 : ℤ) = 40960 + j * 4096) :=
  claim_C3_assoc_radius 4096 40960 45056 (by decide)

/-! ## Claim C4 — what the metadata lookup returns -/

theorem nearbyLoop_eq_findSome (cache : ℤ → Option TimestampRecord) :
    ∀ l : List ℤ, nearbyLoop cache l = l.findSome? cache := by
  intro l
  induction l with
  | nil => rfl
  | cons o rest ih =>
    simp only [nearbyLoop, List.findSome?_cons]
    cases cache o <;> simp [ih]

/-- C4 (amended): `get_metadata_for_offset` rounds the offset down to the
block boundary and returns the cached record exactly at that boundary if
present; otherwise it probes the ten offsets `boundary + j*block_size`,
`j = -5, …, 4`, in ascending order and returns the *first* cached record
found (a fixed 5-block probe range independent of the filesystem, and
not the nearest record); otherwise `none`. -/
theorem claim_C4_lookup (bs : ℕ) (cache : ℤ → Option TimestampRecord)
    (offset : ℕ) (hbs : 0 < bs) :
    get_metadata_for_offset bs cache offset =
      (cache ((offset / bs * bs : ℕ) : ℤ)).orElse fun _ =>
        (List.range 10).findSome? fun (k : ℕ) =>
          cache (((offset / bs * bs : ℕ) : ℤ) - 5 * bs + (k : ℤ) * bs) := by
  have hstop : ((offset / bs * bs : ℕ) : ℤ) + 5 * (bs : ℤ) =
      (((offset / bs * bs : ℕ) : ℤ) - 5 * bs) + ((10 : ℕ) : ℤ) * bs := by
    push_cast
    ring
  have hbs' : (0 : ℤ) < (bs : ℤ) := by exact_mod_cast hbs
  simp only [get_metadata_for_offset, hstop, pythonRange_eq_map _ _ _ hbs',
    nearbyLoop_eq_findSome, List.findSome?_map]
  cases cache ((offset / bs * bs : ℕ) : ℤ) <;> simp [Option.orElse, Function.comp_def]

/-- A cached record decoded from a structure 5 blocks below the probed
offset. -/
def tsFar : TimestampRecord :=
  { mtime := some ⟨2020, 1, 1, 0, 0, 0⟩, ctime := none, atime := none, btime := none }

/-- A different cached record decoded from a structure 1 block above the
probed offset. -/
def tsNear : TimestampRecord :=
  { mtime := some ⟨2021, 1, 1, 0, 0, 0⟩, ctime := none, atime := none, btime := none }

/-- A metadata cache holding `tsFar` at offset 0 and `tsNear` at offset
24576. -/
def cacheC4 : ℤ → Option TimestampRecord := fun o =>
  if o = 0 then some tsFar else if o = 24576 then some tsNear else none

/-- C4 counterexample: probing offset 20480 (block size 4096, boundary
20480), the cache misses exactly, `tsNear` sits one block away and
`tsFar` five blocks away — yet the lookup returns `tsFar`, the first hit
of the ascending probe loop, not the nearest record. -/
theorem claim_C4_counterexample :
    get_metadata_for_offset 4096 cacheC4 20480 = some tsFar ∧
      cacheC4 24576 = some tsNear ∧
      cacheC4 20480 = none ∧
      tsFar ≠ tsNear ∧
      (24576 - 20480 : ℤ) < (20480 - 0 : ℤ) := by
  refine ⟨by decide, by decide, by decide, by decide, by decide⟩

/-- C4 witness: the lookup characterisation instantiated at block size
4096, the empty cache and offset 0. -/
theorem claim_C4_lookup_witness :
    get_metadata_for_offset 4096 (fun _ => none) 0 =
      ((fun (_ : ℤ) => (none : Option TimestampRecord)) ((0 / 4096 * 4096 : ℕ) : ℤ)).orElse
        fun _ =>
          (List.range 10).findSome? fun (k : ℕ) =>
            (fun (_ : ℤ) => (none : Option TimestampRecord))
              (((0 / 4096 * 4096 : ℕ) : ℤ) - 5 * 4096 + (k : ℤ) * 4096) :=
  claim_C4_lookup 4096 (fun _ => none) 0 (by decide)

/-! ## Claim C5 — detector precedence and the missing exFAT branch -/

theorem containsSub_iff (needle : List ℕ) :
    ∀ hay : List ℕ, containsSub needle hay = true ↔ OccursIn needle hay := by
  intro hay
  induction hay with
  | nil =>
    simp only [containsSub, decide_eq_true_eq, OccursIn]
    constructor
    · intro h
      exact ⟨0, by simp [h]⟩
    · rintro ⟨i, h⟩
      simpa using h.symm
  | cons a t ih =>
    simp only [containsSub, Bool.or_eq_true, decide_eq_true_eq, ih]
    constructor
    · rintro (h | h)
      · exact ⟨0, by simpa using h⟩
      · rcases h with ⟨i, hi⟩
        exact ⟨i + 1, by simpa using hi⟩
    · rintro ⟨i, hi⟩
      cases i with
      | zero => exact Or.inl (by simpa using hi)
      | succ i => exact Or.inr ⟨i, by simpa using hi⟩

/-- C5 (amended): detection is first-match-wins over NTFS
(signature anywhere in the boot sector), ext4 (superblock magic), FAT32
(signature anywhere in the boot sector, or at offset 54, or
`"FAT32   "` at offset 82), then Unknown; the source has *no* exFAT
branch, so no image is ever classified as exFAT — an image carrying only
the `"EXFAT   "` signature falls through to Unknown. -/
theorem claim_C5_detector (image : List ℕ) :
    (detect_and_scan_filesystem image = FsType.NTFS ↔
        OccursIn ntfsSig (readAt image 0 512)) ∧
      (detect_and_scan_filesystem image = FsType.ext4 ↔
        ¬ OccursIn ntfsSig (readAt image 0 512) ∧ check_ext4 image = true) ∧
      (detect_and_scan_filesystem image = FsType.FAT32 ↔
        ¬ OccursIn ntfsSig (readAt image 0 512) ∧ ¬ check_ext4 image = true ∧
          (OccursIn fat32Sig (readAt image 0 512) ∨
            ((readAt image 0 512).drop 54).take 5 = fat32Sig ∨
            ((readAt image 0 512).drop 82).take 8 = fat32Sig8)) ∧
      detect_and_scan_filesystem image ≠ FsType.exFAT := by
  have hN := containsSub_iff ntfsSig (readAt image 0 512)
  have hF := containsSub_iff fat32Sig (readAt image 0 512)
  simp only [detect_and_scan_filesystem]
  split_ifs with h1 h2 h3 <;>
    simp_all [Bool.or_eq_true, decide_eq_true_eq] <;>
    tauto

/-- A 512-byte boot sector carrying the exFAT OEM signature
`"EXFAT   "` at offset 3 (after the jump bytes `EB 76 90`) and nothing
else. -/
def exfatImage : List ℕ := [0xEB, 0x76, 0x90] ++ exfatSig ++ List.replicate 501 0

set_option maxRecDepth 100000 in
/-- C5 counterexample: an image whose boot sector holds `"EXFAT   "` at
offset 3 and matches none of the NTFS/ext4/FAT32 signatures is classified
Unknown, not exFAT — the detector has no exFAT clause. -/
theorem claim_C5_counterexample :
    detect_and_scan_filesystem exfatImage = FsType.Unknown ∧
      ((readAt exfatImage 0 512).drop 3).take 8 = exfatSig ∧
      containsSub ntfsSig (readAt exfatImage 0 512) = false ∧
      check_ext4 exfatImage = false ∧
      containsSub fat32Sig (readAt exfatImage 0 512) = false := by
  refine ⟨by decide, by decide, by decide, by decide, by decide⟩

/-! ## Claim C7 — FAT date round-trip and rejection -/

theorem daysInMonth_le (y m : ℕ) : daysInMonth y m ≤ 31 := by
  unfold daysInMonth
  split_ifs <;> omega

theorem fat_fields (a m d : ℕ) (ha : a ≤ 127) (hm : m ≤ 15) (hd : d ≤ 31) :
    ((a * 512 + m * 32 + d) >>> 9) &&& 0x7F = a ∧
      ((a * 512 + m * 32 + d) >>> 5) &&& 0x0F = m ∧
      (a * 512 + m * 32 + d) &&& 0x1F = d := by
  have h7 := Nat.and_pow_two_sub_one_eq_mod ((a * 512 + m * 32 + d) >>> 9) 7
  have h4 := Nat.and_pow_two_sub_one_eq_mod ((a * 512 + m * 32 + d) >>> 5) 4
  have h5 := Nat.and_pow_two_sub_one_eq_mod (a * 512 + m * 32 + d) 5
  norm_num at h7 h4 h5
  rw [Nat.shiftRight_eq_div_pow] at h7
  rw [Nat.shiftRight_eq_div_pow] at h4
  refine ⟨?_, ?_, ?_⟩
  · rw [Nat.shiftRight_eq_div_pow, h7]
    norm_num
    omega
  · rw [Nat.shiftRight_eq_div_pow, h4]
    norm_num
    omega
  · rw [h5]
    omega

theorem fat_datetime_encode_reject (a m d : ℕ) (ha : a ≤ 127) (hm : m ≤ 15)
    (hd : d ≤ 31) (hnz : a * 512 + m * 32 + d ≠ 0)
    (hrej : m = 0 ∨ m > 12 ∨ d = 0 ∨ d > 31) :
    fat_datetime (a * 512 + m * 32 + d) 0 = none := by
  obtain ⟨f1, f2, f3⟩ := fat_fields a m d ha hm hd
  simp only [fat_datetime]
  rw [if_neg hnz, f2, f3, if_pos hrej]

theorem fat_datetime_encode_some (a m d : ℕ) (ha : a ≤ 127) (hm1 : 1 ≤ m)
    (hm : m ≤ 12) (hd1 : 1 ≤ d) (hd : d ≤ daysInMonth (a + 1980) m) :
    fat_datetime (a * 512 + m * 32 + d) 0 = some ⟨a + 1980, m, d, 0, 0, 0⟩ := by
  have hd31 : d ≤ 31 := le_trans hd (daysInMonth_le _ _)
  obtain ⟨f1, f2, f3⟩ := fat_fields a m d ha (by omega) hd31
  have t1 : ((0 : ℕ) >>> 11) &&& 0x1F = 0 := by decide
  have t2 : ((0 : ℕ) >>> 5) &&& 0x3F = 0 := by decide
  have t3 : ((0 : ℕ) &&& 0x1F) * 2 = 0 := by decide
  simp only [fat_datetime]
  rw [if_neg (by omega : ¬ a * 512 + m * 32 + d = 0), f1, f2, f3, t1, t2, t3,
    if_neg (by omega : ¬ (m = 0 ∨ m > 12 ∨ d = 0 ∨ d > 31))]
  unfold mkDatetime
  rw [if_pos ⟨by omega, by omega, hm1, hm, hd1, hd, by omega, by omega, by omega⟩]

/-- C7 (amended): FAT date decoding inverts encoding for every
*calendar-valid* date with year in [1980, 2107] — i.e. additionally
`day ≤ daysInMonth year month`, since the decoder builds a Python
`datetime`, whose range check turns day values beyond the month's length
(e.g. February 30) into `None`; and decoding rejects `month = 0`,
`month = 13`, `day = 0` and `day = 32`. -/
theorem claim_C7_fat_roundtrip (y m d : ℕ) :
    (1980 ≤ y → y ≤ 2107 → 1 ≤ m → m ≤ 12 → 1 ≤ d → d ≤ daysInMonth y m →
        fat_datetime (fatEncodeDate y m d) 0 = some ⟨y, m, d, 0, 0, 0⟩) ∧
      (1980 ≤ y → y ≤ 2107 → 1 ≤ d → d ≤ 31 →
        fat_datetime (fatEncodeDate y 0 d) 0 = none ∧
          fat_datetime (fatEncodeDate y 13 d) 0 = none) ∧
      (1980 ≤ y → y ≤ 2107 → 1 ≤ m → m ≤ 12 →
        fat_datetime (fatEncodeDate y m 0) 0 = none ∧
          fat_datetime (fatEncodeDate y m 32) 0 = none) := by
  refine ⟨?_, ?_, ?_⟩
  · intro hy1 hy2 hm1 hm2 hd1 hd2
    have hy : y - 1980 + 1980 = y := by omega
    have hd2' : d ≤ daysInMonth (y - 1980 + 1980) m := by rw [hy]; exact hd2
    have h := fat_datetime_encode_some (y - 1980) m d (by omega) hm1 hm2 hd1 hd2'
    rw [hy] at h
    exact h
  · intro hy1 hy2 hd1 hd2
    constructor
    · exact fat_datetime_encode_reject (y - 1980) 0 d (by omega) (by omega) hd2
        (by omega) (Or.inl rfl)
    · exact fat_datetime_encode_reject (y - 1980) 13 d (by omega) (by omega) hd2
        (by omega) (Or.inr (Or.inl (by omega)))
  · intro hy1 hy2 hm1 hm2
    constructor
    · exact fat_datetime_encode_reject (y - 1980) m 0 (by omega) (by omega) (by omega)
        (by omega) (Or.inr (Or.inr (Or.inl rfl)))
    · have he : fatEncodeDate y m 32 = (y - 1980) * 512 + (m + 1) * 32 + 0 := by
        unfold fatEncodeDate
        ring
      rw [he]
      exact fat_datetime_encode_reject (y - 1980) (m + 1) 0 (by omega) (by omega)
        (by omega) (by omega) (Or.inr (Or.inr (Or.inl rfl)))

/-- C7 counterexample: (1980, 2, 30) lies in the claimed valid box
(year ∈ [1980, 2107], month ∈ [1, 12], day ∈ [1, 31]) but encode→decode
yields `None`, not the date back: Python's `datetime` raises on
February 30 and the `except` clause returns `None`. -/
theorem claim_C7_counterexample :
    fat_datetime (fatEncodeDate 1980 2 30) 0 = none ∧
      1 ≤ 2 ∧ 2 ≤ 12 ∧ 1 ≤ 30 ∧ 30 ≤ 31 := by
  refine ⟨by decide, by omega, by omega, by omega, by omega⟩

/-- C7 witness: the round-trip theorem instantiated at 2024-01-01 and the
four rejected field values. -/
theorem claim_C7_witness :
    fat_datetime (fatEncodeDate 2024 1 1) 0 = some ⟨2024, 1, 1, 0, 0, 0⟩ ∧
      fat_datetime (fatEncodeDate 2024 0 1) 0 = none ∧
      fat_datetime (fatEncodeDate 2024 13 1) 0 = none ∧
      fat_datetime (fatEncodeDate 2024 1 0) 0 = none ∧
      fat_datetime (fatEncodeDate 2024 1 32) 0 = none :=
  ⟨(claim_C7_fat_roundtrip 2024 1 1).1 (by decide) (by decide) (by decide) (by decide)
      (by decide) (by decide),
    ((claim_C7_fat_roundtrip 2024 1 1).2.1 (by decide) (by decide) (by decide)
      (by decide)).1,
    ((claim_C7_fat_roundtrip 2024 1 1).2.1 (by decide) (by decide) (by decide)
      (by decide)).2,
    ((claim_C7_fat_roundtrip 2024 1 1).2.2 (by decide) (by decide) (by decide)
      (by decide)).1,
    ((claim_C7_fat_roundtrip 2024 1 1).2.2 (by decide) (by decide) (by decide)
      (by decide)).2⟩

/-! ## Claim C8 — the attribute walk stops and terminates -/

theorem ntfsAttrWalk_total (data : List ℕ) :
    ∀ fuel current, 1 ≤ fuel → data.length ≤ current + fuel →
      (ntfsAttrWalk data current fuel).isSome := by
  intro fuel
  induction fuel with
  | zero => intro current h1 _; omega
  | succ f ih =>
    intro current h1 h2
    simp only [ntfsAttrWalk]
    split
    case isFalse => rfl
    case isTrue hguard =>
      have hf : 64 ≤ f := by omega
      repeat' split
      all_goals first
        | rfl
        | exact ih _ (by omega) (by omega)

theorem ntfsAttrWalk_step_cont (data : List ℕ) (current fuel t len : ℕ)
    (hguard : current < data.length - 64)
    (hread : readU32 data current = some t) (hne : t ≠ 0xFFFFFFFF)
    (hnr : t = 0x10 → ∀ nr, data.get? (current + 8) = some nr → nr ≠ 0)
    (hreadlen : readU32 data (current + 4) = some len) :
    ntfsAttrWalk data current (fuel + 1) =
      if len = 0 ∨ 1024 < len then some none
      else ntfsAttrWalk data (current + len) fuel := by
  simp only [ntfsAttrWalk]
  rw [if_pos hguard, hread]
  dsimp only
  rw [if_neg hne, hreadlen]
  by_cases ht : t = 0x10
  · rw [if_pos ht]
    cases hg : data.get? (current + 8) with
    | none =>
      rw [List.get?_eq_none] at hg
      omega
    | some nr =>
      have hnr' : nr ≠ 0 := hnr ht nr hg
      dsimp only
      rw [if_neg hnr']
  · rw [if_neg ht]

/-- C8: the attribute-record walk of `_parse_ntfs_mft_entry` (i) halts on
the `0xFFFFFFFF` end marker, (ii) halts when the attribute length reads
as 0, (iii) on a 1024-byte entry buffer halts when the attribute length
exceeds the remaining buffer (either via the `> 1024` guard or because
the advanced cursor leaves the loop bound on the next test), and (iv)
terminates on *every* buffer and start position: fuel
`data.length - current` (at least 1) is never exhausted, so the walk
never loops on a malformed length.  The non-return hypothesis on a
resident `$STANDARD_INFORMATION` attribute excludes the branch in which
the walk legitimately stops by returning timestamps before reading the
length. -/
theorem claim_C8_attr_walk (data : List ℕ) (current fuel : ℕ) :
    (1 ≤ fuel → data.length ≤ current + fuel →
        (ntfsAttrWalk data current fuel).isSome) ∧
      (current < data.length - 64 → readU32 data current = some 0xFFFFFFFF →
        ntfsAttrWalk data current (fuel + 1) = some none) ∧
      (∀ t, current < data.length - 64 → readU32 data current = some t →
        t ≠ 0xFFFFFFFF →
        (t = 0x10 → ∀ nr, data.get? (current + 8) = some nr → nr ≠ 0) →
        readU32 data (current + 4) = some 0 →
        ntfsAttrWalk data current (fuel + 1) = some none) ∧
      (∀ t len, data.length = 1024 → current < 960 → readU32 data current = some t →
        t ≠ 0xFFFFFFFF →
        (t = 0x10 → ∀ nr, data.get? (current + 8) = some nr → nr ≠ 0) →
        readU32 data (current + 4) = some len → 1024 - current < len →
        ntfsAttrWalk data current (fuel + 2) = some none) := by
  refine ⟨fun h1 h2 => ntfsAttrWalk_total data fuel current h1 h2, ?_, ?_, ?_⟩
  · intro hguard hread
    simp only [ntfsAttrWalk]
    rw [if_pos hguard, hread]
    simp
  · intro t hguard hread hne hnr hlen0
    rw [ntfsAttrWalk_step_cont data current fuel t 0 hguard hread hne hnr hlen0]
    simp
  · intro t len hlen1024 hcur hread hne hnr hreadlen hbig
    have hguard : current < data.length - 64 := by omega
    rw [ntfsAttrWalk_step_cont data current (fuel + 1) t len hguard hread hne hnr hreadlen]
    by_cases hcase : len = 0 ∨ 1024 < len
    · rw [if_pos hcase]
    · rw [if_neg hcase]
      simp only [ntfsAttrWalk]
      rw [if_neg (by omega)]

/-- An all-zero 1024-byte MFT entry buffer. -/
def mftZero : List ℕ := List.replicate 1024 0

/-- A 1024-byte buffer starting with the `0xFFFFFFFF` end marker. -/
def mftEnd : List ℕ := List.replicate 4 255 ++ List.replicate 1020 0

/-- A 1024-byte buffer whose first attribute has length 2047, exceeding
the whole remaining buffer. -/
def mftBigLen : List ℕ := List.replicate 4 0 ++ [255, 7, 0, 0] ++ List.replicate 1016 0

set_option maxRecDepth 200000 in
/-- C8 witness: the four walk properties instantiated on concrete
1024-byte buffers. -/
theorem claim_C8_witness :
    (ntfsAttrWalk mftZero 0 1024).isSome ∧
      ntfsAttrWalk mftEnd 0 (5 + 1) = some none ∧
      ntfsAttrWalk mftZero 0 (5 + 1) = some none ∧
      ntfsAttrWalk mftBigLen 0 (5 + 2) = some none :=
  ⟨(claim_C8_attr_walk mftZero 0 1024).1 (by decide) (by decide),
    (claim_C8_attr_walk mftEnd 0 5).2.1 (by decide) (by decide),
    (claim_C8_attr_walk mftZero 0 5).2.2.1 0 (by decide) (by decide) (by decide)
      (fun h => absurd h (by decide)) (by decide),
    (claim_C8_attr_walk mftBigLen 0 5).2.2.2 0 2047 (by decide) (by decide) (by decide)
      (by decide) (fun h => absurd h (by decide)) (by decide) (by decide)⟩

/-! ## Claim C9 — the 1000-block POC cap -/

theorem analyzeLoop_count_le (ent : List ℕ → ℚ) (read : ℕ → ℕ → Option (List ℕ))
    (bs : ℕ) :
    ∀ (ids : List ℕ) (analyzed : ℕ) (blocks : List (ℕ × BlockData)),
      analyzed ≤ 999 →
      (analyzeLoop ent read bs ids analyzed blocks).1 ≤ 1000 := by
  intro ids
  induction ids with
  | nil => intro analyzed blocks h; simpa [analyzeLoop] using by omega
  | cons block_id rest ih =>
    intro analyzed blocks h
    simp only [analyzeLoop]
    split
    · exact ih analyzed blocks h
    · split
      · omega
      · split
        · omega
        · exact ih (analyzed + 1) _ (by omega)

theorem analyzeLoop_keys_lt (ent : List ℕ → ℚ) (read : ℕ → ℕ → Option (List ℕ))
    (bs : ℕ) :
    ∀ (ids : List ℕ) (analyzed : ℕ) (blocks : List (ℕ × BlockData)),
      (∀ i ∈ ids, read (i * bs) bs ≠ none) →
      analyzed ≤ 999 →
      (∀ p ∈ blocks, p.1 < 1000) →
      (∀ i ∈ ids.take (1000 - analyzed), i < 1000) →
      ∀ p ∈ (analyzeLoop ent read bs ids analyzed blocks).2, p.1 < 1000 := by
  intro ids
  induction ids with
  | nil =>
    intro analyzed blocks _ _ hb _
    simpa [analyzeLoop] using hb
  | cons block_id rest ih =>
    intro analyzed blocks hread hcnt hb hids
    have hid : block_id < 1000 := by
      apply hids
      have h1 : (block_id :: rest).take (1000 - analyzed) =
          block_id :: rest.take (999 - analyzed) := by
        have h2 : 1000 - analyzed = (999 - analyzed) + 1 := by omega
        rw [h2, List.take_succ_cons]
      rw [h1]
      exact List.mem_cons_self _ _
    have hread' : ∀ i ∈ rest, read (i * bs) bs ≠ none :=
      fun i hi => hread i (List.mem_cons_of_mem _ hi)
    have hids' : ∀ i ∈ rest.take (1000 - (analyzed + 1)), i < 1000 := by
      intro i hi
      apply hids
      have h1 : 1000 - analyzed = (1000 - (analyzed + 1)) + 1 := by omega
      rw [h1, List.take_succ_cons]
      exact List.mem_cons_of_mem _ hi
    simp only [analyzeLoop]
    split
    · rename_i heq
      exact absurd heq (hread block_id (List.mem_cons_self _ _))
    · rename_i block_data heq
      have hb' : ∀ p ∈ blocks ++
          [(block_id, mkBlock ent block_id (block_id * bs) block_data)],
          p.1 < 1000 := by
        intro p hp
        rcases List.mem_append.1 hp with hp | hp
        · exact hb p hp
        · simp at hp
          simp [hp]
          omega
      split
      · exact hb
      · split
        · exact hb'
        · exact ih (analyzed + 1) _ hread' (by omega) hb' hids'

/-- C9 (amended): `analyze_blocks` returns at most 1000 regardless of the
source, and when *every block read succeeds* and the source has more than
1000 blocks, only ids below 1000 are stored, so `get_block_info` is
`None` for every `block_id ≥ 1000`; when a read raises, the
`except Exception: continue` clause skips that block id only, so later —
possibly ≥ 1000 — ids can still be analyzed and stored (see the
counterexample). -/
theorem claim_C9_poc_cap (ent : List ℕ → ℚ) (read : ℕ → ℕ → Option (List ℕ))
    (size bs : ℕ) :
    (analyze_blocks ent read size bs).1 ≤ 1000 ∧
      ((∀ offset, read offset bs ≠ none) →
        1000 < totalBlocks size bs →
        ∀ block_id, 1000 ≤ block_id →
          get_block_info (analyze_blocks ent read size bs).2 block_id = none) := by
  constructor
  · exact analyzeLoop_count_le ent read bs _ 0 [] (by omega)
  · intro hread htot block_id hbid
    have hkeys : ∀ p ∈ (analyze_blocks ent read size bs).2, p.1 < 1000 := by
      apply analyzeLoop_keys_lt ent read bs _ 0 []
        (fun i _ => hread (i * bs)) (by omega) (by simp)
      intro i hi
      have h3 : (List.range (totalBlocks size bs)).take 1000 =
          List.range (min 1000 (totalBlocks size bs)) := List.take_range _ _
      rw [h3] at hi
      have := List.mem_range.1 hi
      omega
    unfold get_block_info
    rw [List.find?_eq_none.2]
    · rfl
    · intro p hp
      have := hkeys p hp
      simp only [beq_iff_eq]
      omega

/-- A reader for a 1001-block source (size 1001, block size 1) whose
block reads raise `IOError` everywhere except at offset 1000. -/
def readC9 : ℕ → ℕ → Option (List ℕ) := fun offset _ =>
  if offset = 1000 then some [7] else none

set_option maxRecDepth 400000 in
/-- C9 counterexample: on a 1001-block source whose blocks 0..999 are
unreadable, the `except Exception: continue` clause skips them, block
1000 is read, stored and counted, and `get_block_info(1000)` is not
`None` — refuting the claim that ids ≥ 1000 are never returned on images
with more than 1000 blocks. -/
theorem claim_C9_counterexample :
    1000 < totalBlocks 1001 1 ∧
      (analyze_blocks (fun _ => 0) readC9 1001 1).1 = 1 ∧
      (get_block_info (analyze_blocks (fun _ => 0) readC9 1001 1).2 1000).isSome
        = true := by
  refine ⟨by decide, by decide, by decide⟩

/-- A 1001-byte image analyzed with block size 1: 1001 total blocks. -/
def imageC9 : List ℕ := List.replicate 1001 0

/-- Reading `imageC9` from memory: total, never raises. -/
def readImageC9 : ℕ → ℕ → Option (List ℕ) := fun offset size =>
  some (readAt imageC9 offset size)

set_option maxRecDepth 100000 in
/-- C9 witness: the cap instantiated on a concrete fully readable source
with more than 1000 blocks, probing block id 1000. -/
theorem claim_C9_witness :
    (analyze_blocks (fun _ => 0) readImageC9 1001 1).1 ≤ 1000 ∧
      get_block_info (analyze_blocks (fun _ => 0) readImageC9 1001 1).2 1000 = none :=
  ⟨(claim_C9_poc_cap (fun _ => 0) readImageC9 1001 1).1,
    (claim_C9_poc_cap (fun _ => 0) readImageC9 1001 1).2
      (fun offset => by simp [readImageC9]) (by decide) 1000 (by decide)⟩
